import Mathlib

/-!
Shallow embedding of the SOL-transfer reconciliation scripts
(`get_sol_transfers.py`, `examine_all_txs.py`, `scripts/fetch_contributions.py`)
and proofs settling the frozen claims about them.

Conventions of the embedding:
* Python floats over lamport integers are modelled by exact rationals (ℚ);
  every balance value the scripts touch is an integer number of lamports
  divided by `LAMPORTS_PER_SOL`, which ℚ represents exactly.
* JSON dictionary fields that the code reads with `.get` or guards with
  `in`-tests are `Option` fields; a field the code indexes unconditionally
  and that can raise (`account_keys[i]`, `signatures[0]`) is modelled by a
  fallible access in the `Except String` monad, the error string standing
  for the Python exception.
* The `formatted_time` field of the returned record is a pure rendering of
  `timestamp` and is omitted.
-/

/-- `LAMPORTS_PER_SOL = 1_000_000_000` from `get_sol_transfers.py` line 17. -/
def LAMPORTS_PER_SOL : ℚ := 1000000000

/-- An entry of `transaction.message.accountKeys`: the code tolerates either a
bare address string or a dict carrying a `pubkey` field
(`get_sol_transfers.py` lines 127-133). -/
inductive AccountKey where
  | bare (addr : String)
  | wrapped (pubkey : Option String)
deriving DecidableEq, Repr

/-- Address carried by an account key: the bare string, or the dict's
`pubkey` field when present (`key.get("pubkey")`). -/
def addrOf : AccountKey → Option String
  | .bare s => some s
  | .wrapped p => p

/-- The treasury-matching test of `get_sol_transfers.py` lines 128-132:
a dict matches when its `pubkey` equals the address, a bare key by string
equality. -/
def keyMatches (k : AccountKey) (treasury : String) : Bool :=
  match k with
  | .bare s => s = treasury
  | .wrapped p => p = some treasury

/-- `info` dict of a parsed transfer instruction. -/
structure ParsedInfo where
  source : Option String
  destination : Option String
  lamports : Option Int
deriving DecidableEq, Repr

/-- `instr["parsed"]` payload: the `type` tag and the `info` dict. -/
structure ParsedInstr where
  type : Option String
  info : Option ParsedInfo
deriving DecidableEq, Repr

/-- One entry of `transaction.message.instructions`. -/
structure Instr where
  parsed : Option ParsedInstr
  program : Option String
deriving DecidableEq, Repr

/-- `transaction.message`: account keys plus the optional `instructions`
list (the code guards it with `"instructions" in ...`). -/
structure TxMessage where
  accountKeys : List AccountKey
  instructions : Option (List Instr)
deriving DecidableEq, Repr

/-- `tx_data["transaction"]`. -/
structure TxTransaction where
  message : TxMessage
  signatures : List String
deriving DecidableEq, Repr

/-- `tx_data["meta"]`: balances, fee, optional log messages, and the
transaction error field `err` (which `extract_sol_transfers` never reads). -/
structure TxMeta where
  preBalances : List Int
  postBalances : List Int
  fee : Int
  logMessages : Option (List String)
  err : Option String
deriving DecidableEq, Repr

/-- A transaction record as consumed by `extract_sol_transfers`. -/
structure TxData where
  meta : Option TxMeta
  transaction : TxTransaction
  blockTime : Option Int
deriving DecidableEq, Repr

/-- The description strings built at `get_sol_transfers.py` lines 193-197,
modelled as an injective abstraction of the two f-strings. -/
inductive Description where
  | empty
  | transferTo (amount : ℚ) (dest : Option String)
  | receiveFrom (amount : ℚ) (src : Option String)
deriving DecidableEq, Repr

/-- The record returned by `extract_sol_transfers` (lines 199-207),
minus the derived `formatted_time` field. -/
structure Transfer where
  timestamp : Int
  signature : String
  balance_change : ℚ
  counterparty : String
  is_system_transfer : Bool
  description : Description
deriving DecidableEq, Repr

/-- The treasury-index scan of lines 126-133: first index whose key matches,
`none` when absent. -/
def findAddrIdx (treasury : String) : List AccountKey → ℕ → Option ℕ
  | [], _ => none
  | k :: ks, i => if keyMatches k treasury then some i else findAddrIdx treasury ks (i + 1)

/-- The incoming-counterparty loop of lines 148-158: walk the zipped
balance pairs with their index, skip the treasury index, and stop at the
first account whose delta is negative and satisfies
`abs(change + fee/LAMPORTS_PER_SOL) >= abs(balance_change)`; accessing
`account_keys[i]` past the end of the key list raises `IndexError`. -/
def findSenderLoop (keys : List AccountKey) (tidx : ℕ) (feeQ absDelta : ℚ) :
    List (Int × Int) → ℕ → Except String (Option String)
  | [], _ => .ok none
  | (pre, post) :: rest, i =>
    if i = tidx then findSenderLoop keys tidx feeQ absDelta rest (i + 1)
    else
      let change : ℚ := ((post : ℚ) - (pre : ℚ)) / LAMPORTS_PER_SOL
      if change < 0 ∧ |change + feeQ| ≥ absDelta then
        match keys.get? i with
        | none => .error "IndexError"
        | some k => .ok (addrOf k)
      else findSenderLoop keys tidx feeQ absDelta rest (i + 1)

/-- The outgoing-recipient loop of lines 160-169: first account with a
positive delta whose magnitude is `>= abs(balance_change)`. -/
def findRecipientLoop (keys : List AccountKey) (tidx : ℕ) (absDelta : ℚ) :
    List (Int × Int) → ℕ → Except String (Option String)
  | [], _ => .ok none
  | (pre, post) :: rest, i =>
    if i = tidx then findRecipientLoop keys tidx absDelta rest (i + 1)
    else
      let change : ℚ := ((post : ℚ) - (pre : ℚ)) / LAMPORTS_PER_SOL
      if 0 < change ∧ |change| ≥ absDelta then
        match keys.get? i with
        | none => .error "IndexError"
        | some k => .ok (addrOf k)
      else findRecipientLoop keys tidx absDelta rest (i + 1)

/-- Character-list membership test used to model Python's substring
operator `in` for strings. -/
def startsWithChars : List Char → List Char → Bool
  | [], _ => true
  | _ :: _, [] => false
  | p :: ps, c :: cs => p = c && startsWithChars ps cs

/-- `pat in hay` over character lists. -/
def containsChars (pat : List Char) : List Char → Bool
  | [] => pat.isEmpty
  | l@(_ :: cs) => startsWithChars pat l || containsChars pat cs

/-- The log line test of line 181:
`"Program 11111111111111111111111111111111 invoke" in log`. -/
def logMsgSystem (log : String) : Bool :=
  containsChars "Program 11111111111111111111111111111111 invoke".toList log.toList

/-- `is_system_transfer` computation of lines 175-182: false unless
`logMessages` is present and some line mentions the system program invoke. -/
def sysFlag (meta : TxMeta) : Bool :=
  match meta.logMessages with
  | none => false
  | some logs => logs.any logMsgSystem

/-- The instruction loop of lines 184-197: fold over the instruction list,
a parsed system `transfer` instruction overwriting `description` when its
source or destination is the treasury (`info` defaults to the empty dict,
`lamports` to `0`). -/
def buildDescription (treasury : String) : Option (List Instr) → Description
  | none => .empty
  | some instrs =>
    instrs.foldl
      (fun d instr =>
        match instr.parsed with
        | none => d
        | some p =>
          if instr.program = some "system" ∧ p.type = some "transfer" then
            let src := match p.info with | none => none | some i => i.source
            let dst := match p.info with | none => none | some i => i.destination
            let lam : Int := match p.info with | none => 0 | some i => i.lamports.getD 0
            let amount : ℚ := (lam : ℚ) / LAMPORTS_PER_SOL
            if src = some treasury then .transferTo amount dst
            else if dst = some treasury then .receiveFrom amount src
            else d
          else d)
      .empty

/-- Python `counterparty if counterparty else "Unknown"` of line 204:
`None` and the empty string are falsy. -/
def cpString : Option String → String
  | none => "Unknown"
  | some c => if c = "" then "Unknown" else c

/-- Treasury balance delta in display units, as computed at lines 140-142
(each balance divided by `LAMPORTS_PER_SOL` before subtracting). -/
def balChange (meta : TxMeta) (tidx : ℕ) : ℚ :=
  (meta.postBalances.getD tidx 0 : ℚ) / LAMPORTS_PER_SOL
    - (meta.preBalances.getD tidx 0 : ℚ) / LAMPORTS_PER_SOL

/-- `extract_sol_transfers(tx_data, treasury_address)` of
`get_sol_transfers.py` lines 113-209, in the `Except String` monad:
`.error` models a raised Python exception, `.ok none` the function's
`return None`, `.ok (some t)` the returned transfer record. -/
def extract_sol_transfers (tx : TxData) (treasury : String) :
    Except String (Option Transfer) :=
  match tx.meta with
  | none => .ok none
  | some meta =>
    let keys := tx.transaction.message.accountKeys
    match findAddrIdx treasury keys 0 with
    | none => .ok none
    | some tidx =>
      if tidx < meta.preBalances.length ∧ tidx < meta.postBalances.length then
        let balance_change := balChange meta tidx
        if |balance_change| > 1 / 1000000 then
          let cpE :=
            if 0 < balance_change then
              findSenderLoop keys tidx ((meta.fee : ℚ) / LAMPORTS_PER_SOL)
                |balance_change| (meta.preBalances.zip meta.postBalances) 0
            else
              findRecipientLoop keys tidx |balance_change|
                (meta.preBalances.zip meta.postBalances) 0
          match cpE with
          | .error e => .error e
          | .ok cp =>
            match tx.transaction.signatures with
            | [] => .error "IndexError"
            | s :: _ =>
              .ok (some
                { timestamp := tx.blockTime.getD 0
                  signature := s
                  balance_change := balance_change
                  counterparty := cpString cp
                  is_system_transfer := sysFlag meta
                  description := buildDescription treasury tx.transaction.message.instructions })
        else .ok none
      else .ok none

/-- Outcome of POSTing one JSON-RPC request to one endpoint
(`rpc_request`, lines 39-63): the request raises, or yields a JSON
response that either carries an `error` field or is a valid result. -/
inductive RpcOutcome (A : Type) where
  | exn
  | result (hasError : Bool) (payload : A)
deriving DecidableEq, Repr

/-- An outcome the code retries on: an exception or an `error` field. -/
def RpcOutcome.failed {A : Type} : RpcOutcome A → Bool
  | .exn => true
  | .result he _ => he

/-- `rpc_request(method, params, attempt)` of lines 23-63, abstracted over
the per-endpoint outcomes `eps` (the method, params, headers and the 1s
sleep do not affect the control flow): endpoint `attempt % len(eps)` is
tried; on failure the call retries with `attempt+1` while
`attempt < len(eps) - 1`, else returns `None`. -/
def rpc_request {A : Type} (eps : List (RpcOutcome A)) (attempt : ℕ) : Option A :=
  match eps.get? (attempt % eps.length) with
  | none => none
  | some outc =>
    match outc with
    | .result false r => some r
    | _ => if attempt < eps.length - 1 then rpc_request eps (attempt + 1) else none
termination_by eps.length - attempt
decreasing_by omega

/-- Number of endpoint attempts `rpc_request` makes from `attempt` on
(instrumentation of the same recursion). -/
def rpc_attempts {A : Type} (eps : List (RpcOutcome A)) (attempt : ℕ) : ℕ :=
  match eps.get? (attempt % eps.length) with
  | none => 1
  | some outc =>
    match outc with
    | .result false _ => 1
    | _ => if attempt < eps.length - 1 then 1 + rpc_attempts eps (attempt + 1) else 1
termination_by eps.length - attempt
decreasing_by omega

/-- The provider of a fixed signature history served newest-first in
batches of at most `b`, empty once exhausted: the `n`-th call returns the
`n`-th batch.  (The script's `before` cursor is the last signature of the
previous batch; for a fixed history of distinct signatures the batch it
selects is exactly the `n`-th one, so the provider is indexed by the call
number.) -/
def sigPages {S : Type} (b : ℕ) (history : List S) : ℕ → Option (List S) :=
  fun n => some ((history.drop (n * b)).take b)

/-- The `while True` pagination loop of `get_all_signatures`
(`get_sol_transfers.py` lines 73-102), with the batch limit `b` (the
source fixes `b = 100`), a provider `resp` answering the `n`-th call
(`none` models a terminal RPC failure or a missing/falsy `result` field),
and explicit fuel bounding the number of iterations: stop on failure or an
empty batch, append the batch, stop when the batch is short. -/
def get_all_signatures_loop {S : Type} (b : ℕ) (resp : ℕ → Option (List S)) :
    ℕ → ℕ → List S → List S
  | 0, _, acc => acc
  | fuel + 1, n, acc =>
    match resp n with
    | none => acc
    | some [] => acc
    | some batch =>
      if batch.length < b then acc ++ batch
      else get_all_signatures_loop b resp fuel (n + 1) (acc ++ batch)

/-- `get_all_signatures()`: run the pagination loop from the start with an
empty accumulator. -/
def get_all_signatures {S : Type} (b : ℕ) (resp : ℕ → Option (List S)) (fuel : ℕ) : List S :=
  get_all_signatures_loop b resp fuel 0 []

/-- `sol_transfers.append(transfer_info)` of `main` (line 243): ingestion
is a plain append with no deduplication. -/
def ingest (transfers : List Transfer) (t : Transfer) : List Transfer :=
  transfers ++ [t]

/-- `total_in = sum(t["balance_change"] for t in sol_transfers if t["balance_change"] > 0)`
(line 253). -/
def totalIncoming (l : List Transfer) : ℚ :=
  ((l.filter (fun t => 0 < t.balance_change)).map Transfer.balance_change).sum

/-- `total_out = sum(abs(t["balance_change"]) for t in sol_transfers if t["balance_change"] < 0)`
(line 254). -/
def totalOutgoing (l : List Transfer) : ℚ :=
  ((l.filter (fun t => t.balance_change < 0)).map (fun t => |t.balance_change|)).sum

/-- Number of ingested transfers (`len(sol_transfers)`). -/
def transferCount (l : List Transfer) : ℕ :=
  l.length

/-- An entry of the `incoming_txs` list of `examine_all_txs.py`
lines 152-161. -/
structure IncomingTx where
  signature : String
  timestamp : Option Int
  amount : ℚ
deriving DecidableEq, Repr

/-- The sort key of `examine_all_txs.py` line 164:
`x["timestamp"] if x["timestamp"] else 0` — `None` and `0` are both falsy
and map to `0`. -/
def incomingSortKey (t : IncomingTx) : Int :=
  match t.timestamp with
  | none => 0
  | some ts => if ts = 0 then 0 else ts

/-- Stable descending insertion of one element: it goes before the first
element whose key is `≤` its own, hence after all strictly greater keys
and before all equal keys. -/
def insertDesc (x : IncomingTx) : List IncomingTx → List IncomingTx
  | [] => [x]
  | y :: ys =>
    if incomingSortKey y ≤ incomingSortKey x then x :: y :: ys
    else y :: insertDesc x ys

/-- `incoming_txs.sort(key=lambda x: ..., reverse=True)` of line 164:
Python's sort is stable and `reverse=True` reverses each comparison while
keeping stability, which is exactly the stable descending insertion sort. -/
def sortIncomingDesc (l : List IncomingTx) : List IncomingTx :=
  l.foldr insertDesc []

/-- First index, from `i` upward and skipping the treasury index, whose
balance pair passes the code's incoming test
`change < 0 and abs(change + fee/LAMPORTS_PER_SOL) >= abs(balance_change)`
— the fee is added back for every candidate, whoever pays it. -/
def firstIncomingIdx (tidx : ℕ) (feeQ absDelta : ℚ) :
    List (Int × Int) → ℕ → Option ℕ
  | [], _ => none
  | (pre, post) :: rest, i =>
    if i = tidx then firstIncomingIdx tidx feeQ absDelta rest (i + 1)
    else
      let change : ℚ := ((post : ℚ) - (pre : ℚ)) / LAMPORTS_PER_SOL
      if change < 0 ∧ |change + feeQ| ≥ absDelta then some i
      else firstIncomingIdx tidx feeQ absDelta rest (i + 1)

/-- Declarative form of the incoming-counterparty scan: the first
qualifying index (fee added back unconditionally), then the address at
that index, an out-of-range index raising `IndexError`. -/
def heuristicIncoming (keys : List AccountKey) (tidx : ℕ) (feeQ absDelta : ℚ)
    (pairs : List (Int × Int)) : Except String (Option String) :=
  match firstIncomingIdx tidx feeQ absDelta pairs 0 with
  | none => .ok none
  | some j =>
    match keys.get? j with
    | none => .error "IndexError"
    | some k => .ok (addrOf k)

/-- Modelled from the claim's wording, for comparison with the code: the
qualifying test with the network fee added back when and only when the
candidate account is the fee payer (on this chain the fee payer is the
account at index 0). -/
def claimFirstIncomingIdx (tidx : ℕ) (feeQ absDelta : ℚ) :
    List (Int × Int) → ℕ → Option ℕ
  | [], _ => none
  | (pre, post) :: rest, i =>
    if i = tidx then claimFirstIncomingIdx tidx feeQ absDelta rest (i + 1)
    else
      let change : ℚ := ((post : ℚ) - (pre : ℚ)) / LAMPORTS_PER_SOL
      let adjusted := if i = 0 then change + feeQ else change
      if change < 0 ∧ |adjusted| ≥ absDelta then some i
      else claimFirstIncomingIdx tidx feeQ absDelta rest (i + 1)

/-- A transaction record with the message's instruction list replaced
(every other field unchanged). -/
def TxData.withInstructions (tx : TxData) (instrs2 : Option (List Instr)) : TxData :=
  { tx with transaction :=
      { tx.transaction with message :=
          { tx.transaction.message with instructions := instrs2 } } }

/-- A transaction record with the meta `err` field replaced (every other
field unchanged). -/
def TxData.withErr (tx : TxData) (e : Option String) : TxData :=
  { tx with meta := tx.meta.map (fun m => { m with err := e }) }

/-- The fields of a transfer other than its description. -/
def Transfer.core (t : Transfer) : Int × String × ℚ × String × Bool :=
  (t.timestamp, t.signature, t.balance_change, t.counterparty, t.is_system_transfer)

/-- The concrete input of the C1 scenario: tracked address `T`,
`account_keys = [T, A]`, `pre_balances = [1000000000, 500000000]`,
`post_balances = [1250000000, 250000000]`, fee `5000`, one parsed
system-transfer instruction `A → T` of `250000000` lamports.  No
`logMessages` and no `blockTime` are given in the scenario. -/
def c1Tx : TxData :=
  { meta := some
      { preBalances := [1000000000, 500000000]
        postBalances := [1250000000, 250000000]
        fee := 5000
        logMessages := none
        err := none }
    transaction :=
      { message :=
          { accountKeys := [.bare "T", .bare "A"]
            instructions := some
              [{ parsed := some
                  { type := some "transfer"
                    info := some
                      { source := some "A", destination := some "T"
                        lamports := some 250000000 } }
                 program := some "system" }] }
        signatures := ["sigC1"] }
    blockTime := none }

/-- The C2 counterexample input: same balances, fee and keys as the C1
scenario, no instruction list. -/
def c2Tx : TxData :=
  { meta := some
      { preBalances := [1000000000, 500000000]
        postBalances := [1250000000, 250000000]
        fee := 5000
        logMessages := none
        err := none }
    transaction :=
      { message := { accountKeys := [.bare "T", .bare "A"], instructions := none }
        signatures := ["sigC2"] }
    blockTime := none }

/-- Meta of the C2 witness input: the paying account's delta is
`-250005000` lamports (transfer plus fee), so it qualifies under the
code's unconditional fee add-back. -/
def c2wMeta : TxMeta :=
  { preBalances := [1000000000, 500005000]
    postBalances := [1250000000, 250000000]
    fee := 5000
    logMessages := none
    err := none }

/-- The C2 witness input: an incoming transfer whose sender qualifies. -/
def c2wTx : TxData :=
  { meta := some c2wMeta
    transaction :=
      { message := { accountKeys := [.bare "T", .bare "A"], instructions := none }
        signatures := ["sigW2"] }
    blockTime := none }

/-- The C3 counterexample input: the treasury delta is `+300000000`
lamports and account `A` (delta `-300005000`) is the step-4 heuristic
counterparty, while a decoded system-transfer instruction `A → T` carries
`250000000` lamports — a different amount. -/
def c3Tx : TxData :=
  { meta := some
      { preBalances := [1000000000, 600000000]
        postBalances := [1300000000, 299995000]
        fee := 5000
        logMessages := none
        err := none }
    transaction :=
      { message :=
          { accountKeys := [.bare "T", .bare "A"]
            instructions := some
              [{ parsed := some
                  { type := some "transfer"
                    info := some
                      { source := some "A", destination := some "T"
                        lamports := some 250000000 } }
                 program := some "system" }] }
        signatures := ["sigC3"] }
    blockTime := none }

/-- Meta of the C4 counterexample: the tracked delta is exactly `1000`
lamports, i.e. exactly the dust threshold `1e-6` in display units. -/
def c4Meta : TxMeta :=
  { preBalances := [0, 500000000]
    postBalances := [1000, 500000000]
    fee := 5000
    logMessages := none
    err := none }

/-- The C4 counterexample input. -/
def c4Tx : TxData :=
  { meta := some c4Meta
    transaction :=
      { message := { accountKeys := [.bare "T", .bare "A"], instructions := none }
        signatures := ["sig4"] }
    blockTime := none }

/-- Meta of the C4 witness input: tracked delta `2000` lamports, above the
dust threshold. -/
def c4wMeta : TxMeta :=
  { preBalances := [0, 5000000000]
    postBalances := [2000, 5000000000]
    fee := 5000
    logMessages := none
    err := none }

/-- The C4 witness input: well-formed (equal lengths, tracked present,
nonempty signatures). -/
def c4wTx : TxData :=
  { meta := some c4wMeta
    transaction :=
      { message := { accountKeys := [.bare "T", .bare "A"], instructions := none }
        signatures := ["sigW4"] }
    blockTime := none }

/-- The C5 transfer: `signature = "sig1"`, `signed_amount = 0.5`. -/
def c5t : Transfer :=
  { timestamp := 0
    signature := "sig1"
    balance_change := 1 / 2
    counterparty := "Unknown"
    is_system_transfer := false
    description := .empty }

/-- The C6 witness endpoint list: two failing endpoints (an exception,
then a JSON-RPC `error` field) followed by a valid result. -/
def c6eps : List (RpcOutcome ℕ) :=
  [.exn, .result true 0, .result false 7]

/-- The C7 witness history: seven signatures, not a multiple of the
witness batch size 3. -/
def c7hist : List ℕ :=
  [1, 2, 3, 4, 5, 6, 7]

/-- C8 counterexample entry: signature `"a"`, timestamp 5. -/
def c8ta : IncomingTx :=
  { signature := "a", timestamp := some 5, amount := 1 }

/-- C8 counterexample entry: signature `"b"`, same timestamp 5. -/
def c8tb : IncomingTx :=
  { signature := "b", timestamp := some 5, amount := 2 }

/-- The C9 counterexample input: `account_keys` has two entries but both
balance arrays have three — a length mismatch the code does not validate;
the tracked delta is `+1` SOL. -/
def c9Tx : TxData :=
  { meta := some
      { preBalances := [1000000000, 500000000, 7]
        postBalances := [2000000000, 500000000, 7]
        fee := 5000
        logMessages := none
        err := none }
    transaction :=
      { message := { accountKeys := [.bare "T", .bare "A"], instructions := none }
        signatures := ["sig9"] }
    blockTime := some 42 }

/-- A second C9 input: `account_keys` has one entry but the balance arrays
have two, and index 1 qualifies as sender, so `account_keys[1]` raises. -/
def c9rTx : TxData :=
  { meta := some
      { preBalances := [1000000000, 2500000000]
        postBalances := [2000000000, 500000000]
        fee := 5000
        logMessages := none
        err := none }
    transaction :=
      { message := { accountKeys := [.bare "T"], instructions := none }
        signatures := ["sig9r"] }
    blockTime := none }

/-- A record with no `meta`, used to witness the meta-absent guard. -/
def c9mTx : TxData :=
  { meta := none
    transaction :=
      { message := { accountKeys := [.bare "T"], instructions := none }
        signatures := ["sig9m"] }
    blockTime := none }

/-- The C10 input: a failed transaction (`meta.err` present) where the
tracked account is the fee payer and the only balance change is the
`5000`-lamport fee deduction. -/
def c10Tx : TxData :=
  { meta := some
      { preBalances := [1000000000, 500000000]
        postBalances := [999995000, 500000000]
        fee := 5000
        logMessages := none
        err := some "InstructionError" }
    transaction :=
      { message := { accountKeys := [.bare "T", .bare "X"], instructions := none }
        signatures := ["sig10"] }
    blockTime := some 99 }

/-- C1 (counterexample): at the claim's concrete input — tracked `T`,
`account_keys = [T, A]`, `pre = [1000000000, 500000000]`,
`post = [1250000000, 250000000]`, fee `5000`, parsed system transfer
`A → T` of `250000000` lamports — `extract()` does return
`signed_amount = 0.25`, but the counterparty is `"Unknown"` (not `A`:
the fee added back to `A`'s delta shrinks its magnitude to `0.249995`,
below `0.25`) and `is_system_transfer` is `false` (no log messages). -/
theorem C1_counterexample :
    extract_sol_transfers c1Tx "T"
      = .ok (some
          { timestamp := 0
            signature := "sigC1"
            balance_change := 1 / 4
            counterparty := "Unknown"
            is_system_transfer := false
            description := .receiveFrom (1 / 4) (some "A") })
    ∧ "Unknown" ≠ "A" := by
  constructor
  · norm_num +decide [extract_sol_transfers, c1Tx, findAddrIdx, keyMatches, balChange,
      findSenderLoop, findRecipientLoop, LAMPORTS_PER_SOL, addrOf, cpString,
      sysFlag, buildDescription, List.foldl, abs_of_pos, abs_of_neg, abs_of_nonneg]
  · decide

/-- C1 (amended): on the scenario input, `extract()` returns a transfer
with `signed_amount = 0.25 = 250000000 / LAMPORTS_PER_SOL`, counterparty
`"Unknown"`, `is_system_transfer = false`, and the description
`Receive 0.25 SOL from A` built from the parsed instruction. -/
theorem C1_scenario :
    extract_sol_transfers c1Tx "T"
      = .ok (some
          { timestamp := 0
            signature := "sigC1"
            balance_change := 1 / 4
            counterparty := "Unknown"
            is_system_transfer := false
            description := .receiveFrom (1 / 4) (some "A") })
    ∧ (1 : ℚ) / 4 = 250000000 / LAMPORTS_PER_SOL := by
  constructor
  · norm_num +decide [extract_sol_transfers, c1Tx, findAddrIdx, keyMatches, balChange,
      findSenderLoop, findRecipientLoop, LAMPORTS_PER_SOL, addrOf, cpString,
      sysFlag, buildDescription, List.foldl, abs_of_pos, abs_of_neg, abs_of_nonneg]
  · norm_num [LAMPORTS_PER_SOL]

/-- C4 (counterexample): a tracked delta of exactly `1000` lamports is
exactly the dust threshold `1e-6`; the claim says such a record is not
dropped, but the code's strict `>` comparison drops it. -/
theorem C4_counterexample :
    balChange c4Meta 0 = 1 / 1000000
    ∧ (1 : ℚ) / 1000000 ≤ |balChange c4Meta 0|
    ∧ extract_sol_transfers c4Tx "T" = .ok none := by
  have hb : balChange c4Meta 0 = 1 / 1000000 := by
    norm_num [balChange, c4Meta, LAMPORTS_PER_SOL]
  refine ⟨hb, ?_, ?_⟩
  · rw [hb]; norm_num [abs_of_pos]
  · norm_num [extract_sol_transfers, c4Tx, c4Meta, findAddrIdx, keyMatches, balChange,
      LAMPORTS_PER_SOL, abs_of_pos, abs_of_neg, abs_of_nonneg]

/-- C5 (counterexample): ingestion in the source is a plain `append`; a
second ingestion of the same transfer (same signature `"sig1"`, amount
`0.5`) changes both the incoming total and the transfer count, so it is
not idempotent. -/
theorem C5_counterexample :
    totalIncoming (ingest (ingest [] c5t) c5t) ≠ totalIncoming (ingest [] c5t)
    ∧ transferCount (ingest (ingest [] c5t) c5t) ≠ transferCount (ingest [] c5t) := by
  constructor
  · norm_num [totalIncoming, ingest, c5t, List.filter]
  · norm_num [transferCount, ingest]

/-- C5 (amended): ingesting the same transfer a second time is not a
no-op: the transfer count grows by one and the ingested amount is added
to the running totals again. -/
theorem C5_not_idempotent (l : List Transfer) (t : Transfer) :
    transferCount (ingest (ingest l t) t) = transferCount (ingest l t) + 1
    ∧ totalIncoming (ingest (ingest l t) t)
        = totalIncoming (ingest l t)
          + (if 0 < t.balance_change then t.balance_change else 0)
    ∧ totalOutgoing (ingest (ingest l t) t)
        = totalOutgoing (ingest l t)
          + (if t.balance_change < 0 then |t.balance_change| else 0) := by
  refine ⟨?_, ?_, ?_⟩
  · simp [transferCount, ingest]
  · by_cases h : 0 < t.balance_change <;>
      simp [totalIncoming, ingest, List.filter_append, h, add_assoc]
  · by_cases h : t.balance_change < 0 <;>
      simp [totalOutgoing, ingest, List.filter_append, h, add_assoc]

/-- C10: `extract()` never inspects the transaction's error status —
replacing `meta.err` never changes the result — and on a concrete failed
transaction (`err` present) where the tracked account only paid the
`5000`-lamport fee, the fee deduction `-5e-6` alone is reported as an
outgoing transfer. -/
theorem C10_err_never_inspected :
    (∀ (tx : TxData) (treasury : String) (e : Option String),
        extract_sol_transfers (tx.withErr e) treasury = extract_sol_transfers tx treasury)
    ∧ extract_sol_transfers c10Tx "T"
        = .ok (some
            { timestamp := 99
              signature := "sig10"
              balance_change := -(1 / 200000)
              counterparty := "Unknown"
              is_system_transfer := false
              description := .empty })
    ∧ c10Tx.meta.map TxMeta.err = some (some "InstructionError")
    ∧ |(-(1 / 200000) : ℚ)| > 1 / 1000000 := by
  refine ⟨?_, ?_, by decide, by norm_num [abs_neg, abs_of_pos]⟩
  · rintro ⟨mo, tr, bt⟩ treasury e
    cases mo with
    | none => rfl
    | some m => rfl
  · norm_num [extract_sol_transfers, c10Tx, findAddrIdx, keyMatches, balChange,
      findSenderLoop, findRecipientLoop, LAMPORTS_PER_SOL, addrOf, cpString,
      sysFlag, buildDescription, abs_of_pos, abs_of_neg, abs_of_nonneg]

/-- C9 (counterexample): a record whose `account_keys` has 2 entries but
whose balance arrays have 3 is length-mismatched, yet `extract()` returns
a transfer rather than none; and a record whose balance arrays are longer
than `account_keys` with a qualifying sender at index 1 raises
`IndexError` instead of returning none. -/
theorem C9_counterexample :
    (c9Tx.transaction.message.accountKeys.length = 2
      ∧ c9Tx.meta.map (fun m => m.preBalances.length) = some 3
      ∧ c9Tx.meta.map (fun m => m.postBalances.length) = some 3)
    ∧ extract_sol_transfers c9Tx "T" ≠ .ok none
    ∧ extract_sol_transfers c9rTx "T" = .error "IndexError" := by
  refine ⟨by decide, ?_, ?_⟩
  · norm_num +decide [extract_sol_transfers, c9Tx, findAddrIdx, keyMatches, balChange,
      findSenderLoop, findRecipientLoop, LAMPORTS_PER_SOL, addrOf, cpString,
      sysFlag, buildDescription, abs_of_pos, abs_of_neg, abs_of_nonneg]
  · norm_num +decide [extract_sol_transfers, c9rTx, findAddrIdx, keyMatches, balChange,
      findSenderLoop, findRecipientLoop, LAMPORTS_PER_SOL, addrOf, cpString,
      sysFlag, buildDescription, abs_of_pos, abs_of_neg, abs_of_nonneg]

theorem insertDesc_perm (x : IncomingTx) (l : List IncomingTx) :
    (insertDesc x l).Perm (x :: l) := by
  induction l with
  | nil => simp [insertDesc]
  | cons y ys ih =>
    by_cases h : incomingSortKey y ≤ incomingSortKey x
    · simp [insertDesc, h]
    · simp only [insertDesc, if_neg h]
      exact (ih.cons y).trans (List.Perm.swap x y ys)

theorem sortIncomingDesc_perm (l : List IncomingTx) : (sortIncomingDesc l).Perm l := by
  induction l with
  | nil => rfl
  | cons x xs ih =>
    exact (insertDesc_perm x (sortIncomingDesc xs)).trans (ih.cons x)

theorem insertDesc_sorted (x : IncomingTx) (l : List IncomingTx)
    (hl : l.Pairwise (fun a b => incomingSortKey b ≤ incomingSortKey a)) :
    (insertDesc x l).Pairwise (fun a b => incomingSortKey b ≤ incomingSortKey a) := by
  induction l with
  | nil => simp [insertDesc]
  | cons y ys ih =>
    rcases List.pairwise_cons.mp hl with ⟨hy, hys⟩
    by_cases h : incomingSortKey y ≤ incomingSortKey x
    · simp only [insertDesc, if_pos h]
      refine List.pairwise_cons.mpr ⟨?_, hl⟩
      intro z hz
      rcases List.mem_cons.mp hz with rfl | hz'
      · exact h
      · exact le_trans (hy z hz') h
    · simp only [insertDesc, if_neg h]
      refine List.pairwise_cons.mpr ⟨?_, ih hys⟩
      intro z hz
      rcases List.mem_cons.mp ((insertDesc_perm x ys).mem_iff.mp hz) with rfl | hz'
      · exact le_of_lt (lt_of_not_le h)
      · exact hy z hz'

theorem sortIncomingDesc_sorted (l : List IncomingTx) :
    (sortIncomingDesc l).Pairwise (fun a b => incomingSortKey b ≤ incomingSortKey a) := by
  induction l with
  | nil => simp [sortIncomingDesc]
  | cons x xs ih => exact insertDesc_sorted x (sortIncomingDesc xs) ih

theorem insertDesc_filter (x : IncomingTx) (l : List IncomingTx) (k : ℤ) :
    (insertDesc x l).filter (fun y => incomingSortKey y = k)
      = (if incomingSortKey x = k then [x] else [])
          ++ l.filter (fun y => incomingSortKey y = k) := by
  induction l with
  | nil =>
    by_cases hx : incomingSortKey x = k <;> simp [insertDesc, hx, List.filter_cons]
  | cons y ys ih =>
    by_cases h : incomingSortKey y ≤ incomingSortKey x
    · simp only [insertDesc, if_pos h]
      by_cases hx : incomingSortKey x = k <;> simp [hx, List.filter_cons]
    · simp only [insertDesc, if_neg h]
      by_cases hy : incomingSortKey y = k
      · have hxk : incomingSortKey x ≠ k := ne_of_lt (hy ▸ lt_of_not_le h)
        simp [List.filter_cons, hy, hxk, ih]
      · simp [List.filter_cons, hy, ih]

theorem sortIncomingDesc_filter (l : List IncomingTx) (k : ℤ) :
    (sortIncomingDesc l).filter (fun y => incomingSortKey y = k)
      = l.filter (fun y => incomingSortKey y = k) := by
  induction l with
  | nil => rfl
  | cons x xs ih =>
    have : sortIncomingDesc (x :: xs) = insertDesc x (sortIncomingDesc xs) := rfl
    rw [this, insertDesc_filter, ih]
    by_cases hx : incomingSortKey x = k <;> simp [hx, List.filter_cons]

/-- C8 (counterexample): with two entries sharing timestamp 5 and
signatures `"a"`, `"b"`, the sorted output keeps whichever input order it
was given — `[a,b] ↦ [a,b]` and `[b,a] ↦ [b,a]` — so on ties the output
order is the input order, not any order determined by signature. -/
theorem C8_counterexample :
    sortIncomingDesc [c8ta, c8tb] = [c8ta, c8tb]
    ∧ sortIncomingDesc [c8tb, c8ta] = [c8tb, c8ta]
    ∧ incomingSortKey c8ta = incomingSortKey c8tb
    ∧ c8ta.signature ≠ c8tb.signature := by
  refine ⟨by decide, by decide, by decide, by decide⟩

/-- C8 (amended): the sort orders transfers by timestamp descending with a
`none` timestamp (and a zero one) sorting as 0 — adjacent outputs satisfy
`key[i] ≥ key[i+1]` — it is a permutation of the input, and it is stable:
entries with any given key keep their input order (there is no tie-break
by signature). -/
theorem C8_sort_descending (l : List IncomingTx) :
    List.Chain' (fun a b => incomingSortKey b ≤ incomingSortKey a) (sortIncomingDesc l)
    ∧ (sortIncomingDesc l).Perm l
    ∧ ∀ k : ℤ, (sortIncomingDesc l).filter (fun y => incomingSortKey y = k)
        = l.filter (fun y => incomingSortKey y = k) :=
  ⟨(sortIncomingDesc_sorted l).chain', sortIncomingDesc_perm l,
    fun k => sortIncomingDesc_filter l k⟩

theorem rpc_request_reaches {A : Type} (eps : List (RpcOutcome A)) (E : ℕ) (r : A)
    (hE : 1 ≤ E) (hlen : E ≤ eps.length)
    (hfail : ∀ i, i < E - 1 → (eps.get? i).all RpcOutcome.failed = true)
    (hok : eps.get? (E - 1) = some (.result false r)) :
    ∀ n a, E - 1 - a = n → a ≤ E - 1 →
      rpc_request eps a = some r ∧ rpc_attempts eps a = E - a := by
  intro n
  induction n with
  | zero =>
    intro a h0 ha
    have haE : a = E - 1 := by omega
    subst haE
    have hlt : E - 1 < eps.length := by omega
    rw [rpc_request, rpc_attempts, Nat.mod_eq_of_lt hlt, hok]
    refine ⟨rfl, ?_⟩
    show (1 : ℕ) = E - (E - 1)
    omega
  | succ n ih =>
    intro a hn ha
    have haE : a < E - 1 := by omega
    have hlt : a < eps.length := by omega
    cases ho : eps.get? a with
    | none => exact absurd (List.get?_eq_none.mp ho) (by omega)
    | some o =>
      have hfo : o.failed = true := by
        have h2 := hfail a haE
        rw [ho] at h2
        simpa [Option.all] using h2
      have hbr : a < eps.length - 1 := by omega
      have hrec := ih (a + 1) (by omega) (by omega)
      constructor
      · rw [rpc_request, Nat.mod_eq_of_lt hlt, ho]
        cases o with
        | exn =>
          show (if a < eps.length - 1 then rpc_request eps (a + 1) else none) = some r
          rw [if_pos hbr]; exact hrec.1
        | result he p =>
          cases he with
          | false => simp [RpcOutcome.failed] at hfo
          | true =>
            show (if a < eps.length - 1 then rpc_request eps (a + 1) else none) = some r
            rw [if_pos hbr]; exact hrec.1
      · rw [rpc_attempts, Nat.mod_eq_of_lt hlt, ho]
        cases o with
        | exn =>
          show (if a < eps.length - 1 then 1 + rpc_attempts eps (a + 1) else 1) = E - a
          rw [if_pos hbr, hrec.2]; omega
        | result he p =>
          cases he with
          | false => simp [RpcOutcome.failed] at hfo
          | true =>
            show (if a < eps.length - 1 then 1 + rpc_attempts eps (a + 1) else 1) = E - a
            rw [if_pos hbr, hrec.2]; omega

theorem rpc_request_none_failed {A : Type} (eps : List (RpcOutcome A)) :
    ∀ n a, eps.length - a = n → rpc_request eps a = none →
      ∀ i, a ≤ i → i < eps.length → (eps.get? i).all RpcOutcome.failed = true := by
  intro n
  induction n with
  | zero =>
    intro a h0 _ i hai hil
    omega
  | succ n ih =>
    intro a hn hnone i hai hil
    have hlt : a < eps.length := by omega
    cases ho : eps.get? a with
    | none => exact absurd (List.get?_eq_none.mp ho) (by omega)
    | some o =>
      rw [rpc_request, Nat.mod_eq_of_lt hlt, ho] at hnone
      cases o with
      | result he p =>
        cases he with
        | false => exact absurd hnone (by simp)
        | true =>
          rcases Nat.eq_or_lt_of_le hai with rfl | hai'
          · rw [ho]; rfl
          · by_cases hbr : a < eps.length - 1
            · replace hnone :
                  (if a < eps.length - 1 then rpc_request eps (a + 1) else none) = none :=
                hnone
              rw [if_pos hbr] at hnone
              exact ih (a + 1) (by omega) hnone i (by omega) hil
            · omega
      | exn =>
        rcases Nat.eq_or_lt_of_le hai with rfl | hai'
        · rw [ho]; rfl
        · by_cases hbr : a < eps.length - 1
          · replace hnone :
                (if a < eps.length - 1 then rpc_request eps (a + 1) else none) = none :=
              hnone
            rw [if_pos hbr] at hnone
            exact ih (a + 1) (by omega) hnone i (by omega) hil
          · omega

/-- C6: if the first `E-1` configured endpoints fail (a transport
exception or a JSON-RPC `error` field) and the `E`-th returns a valid
result, `rpc_request` starting at attempt 0 returns that result after
exactly `E` attempts; and it returns the terminal failure `None` only
when every configured endpoint fails. -/
theorem C6_failover {A : Type} (eps : List (RpcOutcome A)) (E : ℕ) (r : A)
    (hE : 1 ≤ E) (hlen : E ≤ eps.length)
    (hfail : ∀ i, i < E - 1 → (eps.get? i).all RpcOutcome.failed = true)
    (hok : eps.get? (E - 1) = some (.result false r)) :
    (rpc_request eps 0 = some r ∧ rpc_attempts eps 0 = E)
    ∧ ∀ (eps2 : List (RpcOutcome A)), rpc_request eps2 0 = none →
        ∀ i, i < eps2.length → (eps2.get? i).all RpcOutcome.failed = true := by
  constructor
  · have h := rpc_request_reaches eps E r hE hlen hfail hok (E - 1) 0 rfl (by omega)
    exact ⟨h.1, by rw [h.2]; omega⟩
  · intro eps2 hnone i hi
    exact rpc_request_none_failed eps2 eps2.length 0 rfl hnone i (by omega) hi

/-- C6 (witness): with endpoints [exception, error-field response, valid
result 7], the client returns 7 after exactly 3 attempts. -/
theorem C6_failover_witness :
    rpc_request c6eps 0 = some 7 ∧ rpc_attempts c6eps 0 = 3 :=
  (C6_failover c6eps 3 7 (by decide) (by decide)
    (by intro i hi; interval_cases i <;> decide) (by decide)).1

theorem get_all_signatures_loop_fixed {S : Type} (b : ℕ) (H : List S) :
    ∀ (fuel n : ℕ) (acc : List S), (H.drop (n * b)).length < fuel * b →
      get_all_signatures_loop b (sigPages b H) fuel n acc = acc ++ H.drop (n * b) := by
  intro fuel
  induction fuel with
  | zero => intro n acc h; omega
  | succ fuel ih =>
    intro n acc h
    by_cases hs : H.drop (n * b) = []
    · rw [get_all_signatures_loop]
      simp [sigPages, hs]
    · have hb : 0 < b := by
        rcases Nat.eq_zero_or_pos b with rfl | hb
        · simp at h
        · exact hb
      rw [get_all_signatures_loop]
      simp only [sigPages]
      rcases hT : (H.drop (n * b)).take b with _ | ⟨t, ts⟩
      · exfalso
        obtain ⟨m, rfl⟩ : ∃ m, b = m + 1 := ⟨b - 1, by omega⟩
        rcases hsx : H.drop (n * (m + 1)) with _ | ⟨x, xs⟩
        · exact hs hsx
        · rw [hsx] at hT
          simp at hT
      · have hmin : (t :: ts).length = min b (H.drop (n * b)).length := by
          rw [← hT, List.length_take]
        have hcases : (t :: ts).length = b
            ∨ (t :: ts).length = (H.drop (n * b)).length := by
          rcases Nat.le_total b (H.drop (n * b)).length with hc | hc
          · left; rw [hmin, min_eq_left hc]
          · right; rw [hmin, min_eq_right hc]
        have hmul : (fuel + 1) * b = fuel * b + b := by ring
        show (if (t :: ts).length < b then acc ++ t :: ts
              else get_all_signatures_loop b (sigPages b H) fuel (n + 1) (acc ++ t :: ts))
            = acc ++ H.drop (n * b)
        by_cases hshort : (t :: ts).length < b
        · rw [if_pos hshort]
          have htake : (H.drop (n * b)).take b = H.drop (n * b) := by
            rcases hcases with hc | hc
            · omega
            · exact List.take_of_length_le (by omega)
          rw [htake] at hT
          rw [hT]
        · rw [if_neg hshort]
          have hdrop : H.drop ((n + 1) * b) = (H.drop (n * b)).drop b := by
            rw [List.drop_drop]
            congr 1
            ring
          have hlen2 : ((H.drop (n * b)).drop b).length
              = (H.drop (n * b)).length - b := by
            simp only [List.length_drop]
          have hrec := ih (n + 1) (acc ++ t :: ts) (by rw [hdrop]; omega)
          rw [hrec, hdrop, List.append_assoc]
          congr 1
          rw [← hT]
          exact List.take_append_drop b (H.drop (n * b))

/-- C7: against a fixed-length synthetic history served newest-first in
batches of at most `b` (empty once exhausted), the pagination loop started
from the beginning returns exactly the `K = history.length` records and
stops (given any iteration budget `fuel` with `K < fuel * b`, so the
result is the full history independently of the budget), whether or not
`b` divides `K`; and whenever a call fails terminally (`resp n = none`),
the loop stops and returns the partial accumulator collected so far. -/
theorem C7_pagination {S : Type} (b : ℕ) (history : List S) (fuel : ℕ)
    (hfuel : history.length < fuel * b) :
    get_all_signatures b (sigPages b history) fuel = history
    ∧ ∀ (resp : ℕ → Option (List S)) (n fuel2 : ℕ) (acc : List S),
        resp n = none → get_all_signatures_loop b resp (fuel2 + 1) n acc = acc := by
  constructor
  · have h := get_all_signatures_loop_fixed b history fuel 0 [] (by simpa using hfuel)
    simpa [get_all_signatures] using h
  · intro resp n fuel2 acc hnone
    rw [get_all_signatures_loop, hnone]

/-- C7 (witness): a history of 7 signatures with batch size 3 (which does
not divide 7) is returned in full. -/
theorem C7_pagination_witness :
    get_all_signatures 3 (sigPages 3 c7hist) 3 = c7hist :=
  (C7_pagination 3 c7hist 3 (by decide)).1

theorem findAddrIdx_bound (treasury : String) :
    ∀ (ks : List AccountKey) (i j : ℕ),
      findAddrIdx treasury ks i = some j → i ≤ j ∧ j < i + ks.length := by
  intro ks
  induction ks with
  | nil => intro i j hfind; simp [findAddrIdx] at hfind
  | cons k ks ih =>
    intro i j hfind
    by_cases hk : keyMatches k treasury
    · rw [findAddrIdx, if_pos hk] at hfind
      cases hfind
      simp
    · rw [findAddrIdx, if_neg hk] at hfind
      have := ih (i + 1) j hfind
      constructor
      · omega
      · simp only [List.length_cons]
        omega

theorem findSenderLoop_eq_firstIncoming (keys : List AccountKey) (tidx : ℕ)
    (feeQ absDelta : ℚ) :
    ∀ (pairs : List (Int × Int)) (i : ℕ),
      findSenderLoop keys tidx feeQ absDelta pairs i
        = match firstIncomingIdx tidx feeQ absDelta pairs i with
          | none => .ok none
          | some j =>
            match keys.get? j with
            | none => .error "IndexError"
            | some k => .ok (addrOf k)
  := by
  intro pairs
  induction pairs with
  | nil => intro i; rfl
  | cons p rest ih =>
    intro i
    obtain ⟨pre, post⟩ := p
    by_cases hi : i = tidx
    · rw [findSenderLoop, firstIncomingIdx]
      rw [if_pos hi, if_pos hi]
      exact ih (i + 1)
    · by_cases hc : ((post : ℚ) - (pre : ℚ)) / LAMPORTS_PER_SOL < 0
          ∧ |((post : ℚ) - (pre : ℚ)) / LAMPORTS_PER_SOL + feeQ| ≥ absDelta
      · rw [findSenderLoop, firstIncomingIdx]
        rw [if_neg hi, if_neg hi, if_pos hc, if_pos hc]
      · rw [findSenderLoop, firstIncomingIdx]
        rw [if_neg hi, if_neg hi, if_neg hc, if_neg hc]
        exact ih (i + 1)

theorem findSenderLoop_isOk (keys : List AccountKey) (tidx : ℕ) (feeQ absDelta : ℚ) :
    ∀ (pairs : List (Int × Int)) (i : ℕ), i + pairs.length ≤ keys.length →
      ∃ cp, findSenderLoop keys tidx feeQ absDelta pairs i = .ok cp := by
  intro pairs
  induction pairs with
  | nil => intro i _; exact ⟨none, rfl⟩
  | cons p rest ih =>
    intro i hlen
    obtain ⟨pre, post⟩ := p
    simp only [List.length_cons] at hlen
    by_cases hi : i = tidx
    · rw [findSenderLoop, if_pos hi]
      exact ih (i + 1) (by omega)
    · by_cases hc : ((post : ℚ) - (pre : ℚ)) / LAMPORTS_PER_SOL < 0
          ∧ |((post : ℚ) - (pre : ℚ)) / LAMPORTS_PER_SOL + feeQ| ≥ absDelta
      · rw [findSenderLoop, if_neg hi, if_pos hc]
        cases hg : keys.get? i with
        | none => exact absurd (List.get?_eq_none.mp hg) (by omega)
        | some k => exact ⟨addrOf k, rfl⟩
      · rw [findSenderLoop, if_neg hi, if_neg hc]
        exact ih (i + 1) (by omega)

theorem findRecipientLoop_isOk (keys : List AccountKey) (tidx : ℕ) (absDelta : ℚ) :
    ∀ (pairs : List (Int × Int)) (i : ℕ), i + pairs.length ≤ keys.length →
      ∃ cp, findRecipientLoop keys tidx absDelta pairs i = .ok cp := by
  intro pairs
  induction pairs with
  | nil => intro i _; exact ⟨none, rfl⟩
  | cons p rest ih =>
    intro i hlen
    obtain ⟨pre, post⟩ := p
    simp only [List.length_cons] at hlen
    by_cases hi : i = tidx
    · rw [findRecipientLoop, if_pos hi]
      exact ih (i + 1) (by omega)
    · by_cases hc : 0 < ((post : ℚ) - (pre : ℚ)) / LAMPORTS_PER_SOL
          ∧ |((post : ℚ) - (pre : ℚ)) / LAMPORTS_PER_SOL| ≥ absDelta
      · rw [findRecipientLoop, if_neg hi, if_pos hc]
        cases hg : keys.get? i with
        | none => exact absurd (List.get?_eq_none.mp hg) (by omega)
        | some k => exact ⟨addrOf k, rfl⟩
      · rw [findRecipientLoop, if_neg hi, if_neg hc]
        exact ih (i + 1) (by omega)

/-- C2 (amended): for every incoming transfer (positive tracked delta),
the counterparty of the returned transfer is determined by the first other
account, in ascending index order, whose delta is negative and whose
magnitude **with the network fee always added back — whoever pays the
fee** is at least the tracked delta (`heuristicIncoming` /
`firstIncomingIdx`); if no account qualifies (or the qualifying key has no
usable address) the counterparty is the string `"Unknown"`. -/
theorem C2_incoming_counterparty (tx : TxData) (treasury : String) (m : TxMeta)
    (tidx : ℕ) (cp : Option String) (s : String) (rest : List String)
    (hm : tx.meta = some m)
    (hfind : findAddrIdx treasury tx.transaction.message.accountKeys 0 = some tidx)
    (hb : tidx < m.preBalances.length ∧ tidx < m.postBalances.length)
    (hdust : |balChange m tidx| > 1 / 1000000)
    (hpos : 0 < balChange m tidx)
    (hcp : heuristicIncoming tx.transaction.message.accountKeys tidx
        ((m.fee : ℚ) / LAMPORTS_PER_SOL) |balChange m tidx|
        (m.preBalances.zip m.postBalances) = .ok cp)
    (hsig : tx.transaction.signatures = s :: rest) :
    extract_sol_transfers tx treasury
      = .ok (some
          { timestamp := tx.blockTime.getD 0
            signature := s
            balance_change := balChange m tidx
            counterparty := cpString cp
            is_system_transfer := sysFlag m
            description := buildDescription treasury tx.transaction.message.instructions }) := by
  obtain ⟨mo, ⟨⟨keys, instrs⟩, sigs⟩, bt⟩ := tx
  simp only at hm hfind hcp hsig ⊢
  subst hm hsig
  rw [extract_sol_transfers]
  simp only [hfind]
  rw [if_pos hb, if_pos hdust, if_pos hpos]
  rw [findSenderLoop_eq_firstIncoming]
  rw [show (match firstIncomingIdx tidx ((m.fee : ℚ) / LAMPORTS_PER_SOL)
        |balChange m tidx| (m.preBalances.zip m.postBalances) 0 with
      | none => (Except.ok none : Except String (Option String))
      | some j =>
        match keys.get? j with
        | none => .error "IndexError"
        | some k => .ok (addrOf k)) = heuristicIncoming keys tidx
        ((m.fee : ℚ) / LAMPORTS_PER_SOL) |balChange m tidx|
        (m.preBalances.zip m.postBalances) from rfl]
  rw [hcp]

/-- C2 (counterexample): at the input `keys = [T, A]`,
`pre = [1000000000, 500000000]`, `post = [1250000000, 250000000]`,
fee `5000`, the claim's rule (fee added back only for the fee payer,
account 0) selects account 1 = `A`, but the code returns counterparty
`"Unknown"` because it adds the fee to `A`'s delta as well. -/
theorem C2_counterexample :
    claimFirstIncomingIdx 0 ((5000 : ℚ) / LAMPORTS_PER_SOL) (1 / 4)
        [((1000000000 : ℤ), (1250000000 : ℤ)), ((500000000 : ℤ), (250000000 : ℤ))] 0
      = some 1
    ∧ addrOf (.bare "A") = some "A"
    ∧ extract_sol_transfers c2Tx "T"
        = .ok (some
            { timestamp := 0
              signature := "sigC2"
              balance_change := 1 / 4
              counterparty := "Unknown"
              is_system_transfer := false
              description := .empty })
    ∧ "Unknown" ≠ "A" := by
  refine ⟨?_, rfl, ?_, by decide⟩
  · norm_num [claimFirstIncomingIdx, LAMPORTS_PER_SOL, abs_of_pos, abs_of_neg, abs_of_nonneg]
  · norm_num +decide [extract_sol_transfers, c2Tx, findAddrIdx, keyMatches, balChange,
      findSenderLoop, findRecipientLoop, LAMPORTS_PER_SOL, addrOf, cpString,
      sysFlag, buildDescription, abs_of_pos, abs_of_neg, abs_of_nonneg]

/-- C2 (witness): a concrete incoming transfer where the sender account
(delta `-250005000` lamports, fee `5000` added back giving magnitude
exactly `0.25`) qualifies, so the counterparty is `A`. -/
theorem C2_incoming_counterparty_witness :
    extract_sol_transfers c2wTx "T"
      = .ok (some
          { timestamp := 0
            signature := "sigW2"
            balance_change := 1 / 4
            counterparty := "A"
            is_system_transfer := false
            description := .empty }) := by
  have h := C2_incoming_counterparty c2wTx "T" c2wMeta 0 (some "A") "sigW2" [] rfl
    (by norm_num +decide [findAddrIdx, keyMatches, c2wTx])
    (by constructor <;> norm_num [c2wMeta])
    (by norm_num [balChange, c2wMeta, LAMPORTS_PER_SOL, abs_of_pos])
    (by norm_num [balChange, c2wMeta, LAMPORTS_PER_SOL])
    (by norm_num +decide [heuristicIncoming, firstIncomingIdx, c2wTx, c2wMeta, balChange,
        LAMPORTS_PER_SOL, addrOf, abs_of_pos, abs_of_neg, abs_of_nonneg])
    rfl
  rw [h]
  norm_num +decide [c2wTx, c2wMeta, balChange, LAMPORTS_PER_SOL, cpString, sysFlag,
    buildDescription]

/-- C3 (amended): the decoded instruction list influences only the
`description` field — replacing it arbitrarily never changes the
timestamp, signature, signed amount, counterparty, or system flag of the
result (nor whether the call raises or returns none): the heuristic's
amount and counterparty are never overridden by the parsed instruction. -/
theorem C3_instructions_only_description (tx : TxData) (treasury : String)
    (instrs2 : Option (List Instr)) :
    Except.map (Option.map Transfer.core)
        (extract_sol_transfers (tx.withInstructions instrs2) treasury)
      = Except.map (Option.map Transfer.core) (extract_sol_transfers tx treasury) := by
  obtain ⟨mo, ⟨⟨keys, instrs⟩, sigs⟩, bt⟩ := tx
  cases mo with
  | none => rfl
  | some m =>
    rw [extract_sol_transfers, extract_sol_transfers]
    simp only [TxData.withInstructions]
    cases hfind : findAddrIdx treasury keys 0 with
    | none => rfl
    | some tidx =>
      dsimp only
      by_cases hb : tidx < m.preBalances.length ∧ tidx < m.postBalances.length
      · rw [if_pos hb, if_pos hb]
        by_cases hdust : |balChange m tidx| > 1 / 1000000
        · rw [if_pos hdust, if_pos hdust]
          by_cases hpos : 0 < balChange m tidx
          · rw [if_pos hpos]
            cases hcp : findSenderLoop keys tidx ((m.fee : ℚ) / LAMPORTS_PER_SOL)
                |balChange m tidx| (m.preBalances.zip m.postBalances) 0 with
            | error e => rfl
            | ok cp => cases sigs with
              | nil => rfl
              | cons s rest => rfl
          · rw [if_neg hpos]
            cases hcp : findRecipientLoop keys tidx |balChange m tidx|
                (m.preBalances.zip m.postBalances) 0 with
            | error e => rfl
            | ok cp => cases sigs with
              | nil => rfl
              | cons s rest => rfl
        · rw [if_neg hdust, if_neg hdust]
      · rw [if_neg hb, if_neg hb]

/-- C3 (counterexample): on `c3Tx` the decoded system-transfer instruction
has source `A` (exactly the step-4 counterparty) and destination `T`
(the tracked address) with `250000000` lamports (`0.25`), yet the returned
transfer keeps the balance-delta amount `0.3` — the instruction's exact
amount is not preferred, it only feeds the description string. -/
theorem C3_counterexample :
    extract_sol_transfers c3Tx "T"
      = .ok (some
          { timestamp := 0
            signature := "sigC3"
            balance_change := 3 / 10
            counterparty := "A"
            is_system_transfer := false
            description := .receiveFrom (1 / 4) (some "A") })
    ∧ (3 : ℚ) / 10 ≠ 1 / 4
    ∧ (1 : ℚ) / 4 = 250000000 / LAMPORTS_PER_SOL := by
  refine ⟨?_, by norm_num, by norm_num [LAMPORTS_PER_SOL]⟩
  norm_num +decide [extract_sol_transfers, c3Tx, findAddrIdx, keyMatches, balChange,
    findSenderLoop, findRecipientLoop, LAMPORTS_PER_SOL, addrOf, cpString,
    sysFlag, buildDescription, List.foldl, abs_of_pos, abs_of_neg, abs_of_nonneg]

/-- C4 (amended): for a well-formed record (meta present, tracked address
found, balance arrays as long as the key list, nonempty signatures) the
dust filter keeps exactly the records whose absolute delta is **strictly
greater** than `1e-6`: when `|delta| ≤ 1e-6` (in particular when post
equals pre, and also at exactly `1e-6`) the extractor returns none, and
when `|delta| > 1e-6` it returns a transfer. -/
theorem C4_dust_threshold (tx : TxData) (treasury : String) (m : TxMeta)
    (tidx : ℕ) (s : String) (rest : List String)
    (hm : tx.meta = some m)
    (hfind : findAddrIdx treasury tx.transaction.message.accountKeys 0 = some tidx)
    (hpre : m.preBalances.length = tx.transaction.message.accountKeys.length)
    (hpost : m.postBalances.length = tx.transaction.message.accountKeys.length)
    (hsig : tx.transaction.signatures = s :: rest) :
    (|balChange m tidx| ≤ 1 / 1000000 → extract_sol_transfers tx treasury = .ok none)
    ∧ (1 / 1000000 < |balChange m tidx| →
        ∃ t, extract_sol_transfers tx treasury = .ok (some t)) := by
  obtain ⟨mo, ⟨⟨keys, instrs⟩, sigs⟩, bt⟩ := tx
  simp only at hm hfind hpre hpost hsig ⊢
  subst hm hsig
  have htlt : tidx < keys.length := by
    have := findAddrIdx_bound treasury keys 0 tidx hfind
    omega
  have hb : tidx < m.preBalances.length ∧ tidx < m.postBalances.length := by omega
  have hzip : 0 + (m.preBalances.zip m.postBalances).length ≤ keys.length := by
    simp [List.length_zip, hpre, hpost]
  constructor
  · intro hle
    rw [extract_sol_transfers]
    simp only [hfind]
    rw [if_pos hb, if_neg (not_lt.mpr hle)]
  · intro hgt
    rw [extract_sol_transfers]
    simp only [hfind]
    rw [if_pos hb, if_pos hgt]
    by_cases hpos : 0 < balChange m tidx
    · rw [if_pos hpos]
      obtain ⟨cp, hcp⟩ := findSenderLoop_isOk keys tidx ((m.fee : ℚ) / LAMPORTS_PER_SOL)
        |balChange m tidx| (m.preBalances.zip m.postBalances) 0 hzip
      rw [hcp]
      exact ⟨_, rfl⟩
    · rw [if_neg hpos]
      obtain ⟨cp, hcp⟩ := findRecipientLoop_isOk keys tidx
        |balChange m tidx| (m.preBalances.zip m.postBalances) 0 hzip
      rw [hcp]
      exact ⟨_, rfl⟩

/-- C4 (witness): the well-formed record `c4wTx` with tracked delta
`2000` lamports (`2e-6`): the theorem applies, and its strict-side
hypothesis holds, yielding a transfer. -/
theorem C4_dust_threshold_witness :
    (|balChange c4wMeta 0| ≤ 1 / 1000000 → extract_sol_transfers c4wTx "T" = .ok none)
    ∧ (1 / 1000000 < |balChange c4wMeta 0| →
        ∃ t, extract_sol_transfers c4wTx "T" = .ok (some t)) :=
  C4_dust_threshold c4wTx "T" c4wMeta 0 "sigW4" [] rfl
    (by norm_num +decide [findAddrIdx, keyMatches, c4wTx])
    (by norm_num [c4wMeta, c4wTx]) (by norm_num [c4wMeta, c4wTx]) rfl

/-- C9 (amended): records with no `meta` return none, and so do records
whose tracked index lies outside either balance array; but array-length
mismatches as such are not validated: `c9Tx` (3 balances, 2 keys) yields a
transfer, and `c9rTx` (2 balances, 1 key, a qualifying sender at index 1)
raises `IndexError` from `account_keys[1]` instead of returning none. -/
theorem C9_unparseable_guard :
    (∀ (tx : TxData) (treasury : String), tx.meta = none →
        extract_sol_transfers tx treasury = .ok none)
    ∧ (∀ (tx : TxData) (treasury : String) (m : TxMeta) (tidx : ℕ),
        tx.meta = some m →
        findAddrIdx treasury tx.transaction.message.accountKeys 0 = some tidx →
        ¬(tidx < m.preBalances.length ∧ tidx < m.postBalances.length) →
        extract_sol_transfers tx treasury = .ok none)
    ∧ extract_sol_transfers c9Tx "T"
        = .ok (some
            { timestamp := 42
              signature := "sig9"
              balance_change := 1
              counterparty := "Unknown"
              is_system_transfer := false
              description := .empty })
    ∧ extract_sol_transfers c9rTx "T" = .error "IndexError" := by
  refine ⟨?_, ?_, ?_, ?_⟩
  · intro tx treasury h
    obtain ⟨mo, tr, bt⟩ := tx
    simp only at h
    subst h
    rfl
  · intro tx treasury m tidx hm hfind hnb
    obtain ⟨mo, ⟨⟨keys, instrs⟩, sigs⟩, bt⟩ := tx
    simp only at hm hfind
    subst hm
    rw [extract_sol_transfers]
    simp only [hfind]
    rw [if_neg hnb]
  · norm_num +decide [extract_sol_transfers, c9Tx, findAddrIdx, keyMatches, balChange,
      findSenderLoop, findRecipientLoop, LAMPORTS_PER_SOL, addrOf, cpString,
      sysFlag, buildDescription, abs_of_pos, abs_of_neg, abs_of_nonneg]
  · norm_num +decide [extract_sol_transfers, c9rTx, findAddrIdx, keyMatches, balChange,
      findSenderLoop, findRecipientLoop, LAMPORTS_PER_SOL, addrOf, cpString,
      sysFlag, buildDescription, abs_of_pos, abs_of_neg, abs_of_nonneg]

/-- C9 (witness): a record with no `meta` returns none. -/
theorem C9_unparseable_guard_witness :
    extract_sol_transfers c9mTx "T" = .ok none :=
  C9_unparseable_guard.1 c9mTx "T" rfl
